import Mathlib

/-!
Verification of the `widget` Wayland system-monitor dashboard (`src/main.rs`).

The Rust program is shallowly embedded in Lean:

* the `VecDeque` histories become Lean lists whose head is the deque's front
  (`push_front` is `cons`, `pop_back` removes the last element, `back` is
  `getLast?`, iteration order is list order);
* machine integers (`u64`, `usize`) become `Nat`;
* `f64` values that the program manipulates exactly (every division by 1024
  keeps the value an integer multiple of a power of two, far from the
  subnormal range) are represented exactly — `format_bytes` carries the
  value as `x / 2 ^ k` with `x k : Nat`, and fractions are `ℚ`;
* fallible or panicking code returns `Except String`;
* the Wayland event loop and the shared-memory buffer lifecycle become
  explicit step functions on small state records, with OS/compositor
  outcomes (render success, allocation success) passed in as parameters.
-/

namespace Widget

universe u

variable {α : Type u}

/-- `MAX_CPU_USAGE_POINTS` from the source: capacity of the CPU-usage history. -/
def MAX_CPU_USAGE_POINTS : Nat := 50

/-- `MAX_DISK_USAGE_POINTS` from the source: capacity of the two disk-throughput
histories. -/
def MAX_DISK_USAGE_POINTS : Nat := 150

/-- Embedding of `push_within_limit` (src/main.rs:909-916).  The deque is a list
with the front at the head: `push_front` is `cons`; when the length exceeds
`limit`, `pop_back` removes and returns the last (oldest) element. -/
def push_within_limit (values : List α) (new_value : α) (limit : Nat) :
    List α × Option α :=
  let pushed := new_value :: values
  if pushed.length > limit then (pushed.dropLast, pushed.getLast?)
  else (pushed, none)

/-- State of a history after pushing the elements of `xs`, in order, into an
initially empty deque of capacity `limit` (the histories start empty in
`App::new`, src/main.rs:80-82). -/
def pushSeq (limit : Nat) (xs : List α) : List α :=
  xs.foldl (fun st x => (push_within_limit st x limit).1) []

theorem pushSeq_concat (limit : Nat) (xs : List α) (x : α) :
    pushSeq limit (xs ++ [x]) = (push_within_limit (pushSeq limit xs) x limit).1 := by
  simp [pushSeq, List.foldl_append]

theorem push_step_take (limit : Nat) (r : List α) (x : α) :
    (push_within_limit (r.take limit) x limit).1 = (x :: r).take limit := by
  unfold push_within_limit
  by_cases hlen : r.length < limit
  · have h1 : r.take limit = r := List.take_of_length_le (Nat.le_of_lt hlen)
    have h2 : ¬ ((x :: r.take limit).length > limit) := by
      simp only [List.length_cons, h1]
      omega
    rw [if_neg h2]
    have h3 : (x :: r).take limit = x :: r :=
      List.take_of_length_le (by simp only [List.length_cons]; omega)
    simp [h1, h3]
  · push_neg at hlen
    match limit with
    | 0 => simp
    | m + 1 =>
      have hmin : min (m + 1) r.length = m + 1 := Nat.min_eq_left hlen
      have hlt : (x :: r.take (m + 1)).length > m + 1 := by
        simp only [List.length_cons, List.length_take, hmin]
        omega
      rw [if_pos hlt]
      have hne : r.take (m + 1) ≠ [] := by
        intro hcon
        have := congrArg List.length hcon
        simp only [List.length_take, hmin, List.length_nil] at this
        omega
      simp only [List.dropLast_cons_of_ne_nil hne]
      rw [List.dropLast_eq_take, List.length_take, hmin]
      rw [List.take_take]
      have : min m (m + 1) = m := Nat.min_eq_left (Nat.le_succ m)
      simp [this, List.take_succ_cons]

/-- The history after any sequence of pushes holds exactly the last `limit`
pushed values, most-recent-first. -/
theorem pushSeq_eq_take_reverse (limit : Nat) (xs : List α) :
    pushSeq limit xs = xs.reverse.take limit := by
  induction xs using List.reverseRecOn with
  | nil => simp [pushSeq]
  | append_singleton l x ih =>
    rw [pushSeq_concat, ih, push_step_take]
    simp

theorem pushSeq_length (limit : Nat) (xs : List α) :
    (pushSeq limit xs).length = min limit xs.length := by
  rw [pushSeq_eq_take_reverse]
  simp

/-- C2: for every capacity `c > 0` and every finite sequence of pushes into a
`BoundedHistory` (`push_within_limit` on a `VecDeque`): the length never exceeds
`c`; the retained values are exactly the last `c` pushed, most-recent-first
(for `n > c` pushes the oldest `n - c` are gone); and the next push returns the
evicted element — the single oldest retained element — exactly when the length
before the push is `c`, and `none` otherwise. -/
theorem bounded_history_push (α : Type) (c : Nat) (hc : 0 < c) (xs : List α) :
    (pushSeq c xs).length ≤ c ∧
    pushSeq c xs = xs.reverse.take c ∧
    (∀ x : α, (push_within_limit (pushSeq c xs) x c).2 =
      if (pushSeq c xs).length = c then (pushSeq c xs).getLast? else none) := by
  refine ⟨?_, pushSeq_eq_take_reverse c xs, ?_⟩
  · rw [pushSeq_length]
    exact Nat.min_le_left _ _
  · intro x
    have hlen : (pushSeq c xs).length ≤ c := by
      rw [pushSeq_length]; exact Nat.min_le_left _ _
    unfold push_within_limit
    by_cases heq : (pushSeq c xs).length = c
    · have hgt : (x :: pushSeq c xs).length > c := by
        simp only [List.length_cons]; omega
      rw [if_pos hgt, if_pos heq]
      match hst : pushSeq c xs with
      | [] => exact absurd (hst ▸ heq) (by simpa using Nat.ne_of_lt hc)
      | y :: t => simp
    · have hngt : ¬ ((x :: pushSeq c xs).length > c) := by
        simp only [List.length_cons]; omega
      rw [if_neg hngt, if_neg heq]

theorem bounded_history_push_witness :
    0 < 2 ∧ (pushSeq 2 [(1 : Nat), 2, 3]).length ≤ 2 ∧
    pushSeq 2 [(1 : Nat), 2, 3] = [3, 2] ∧
    (push_within_limit (pushSeq 2 [(1 : Nat), 2, 3]) 9 2).2 = some 2 := by
  have h := bounded_history_push Nat 2 (by decide) [1, 2, 3]
  refine ⟨by decide, h.1, by decide, ?_⟩
  rw [h.2.2 9]
  decide

/-- The OS counters one call to `refresh_system` observes: per-core CPU usage
percentages and, per disk, the cumulative bytes read and written since the last
refresh (`sysinfo::Cpu::cpu_usage`, `sysinfo::Disk::usage`).  The `f32`/`f64`
readings are represented exactly as rationals. -/
structure SampleInput where
  cpuUsages : List ℚ
  diskReads : List Nat
  diskWrites : List Nat
deriving DecidableEq

/-- The three history deques of `App` (src/main.rs:53-55). -/
structure Telemetry where
  cpu_usage_points : List ℚ
  read_bytes_points : List Nat
  written_bytes_points : List Nat
deriving DecidableEq

/-- The histories `App::new` starts from (src/main.rs:80-82): all empty. -/
def emptyTelemetry : Telemetry :=
  { cpu_usage_points := [], read_bytes_points := [], written_bytes_points := [] }

/-- Embedding of `App::refresh_system` (src/main.rs:88-123).  The source panics
with "CPUs cannot be empty" when the refreshed CPU list is empty (line 96);
a panic is modelled as `Except.error`.  Otherwise it pushes the capped average
CPU usage and the summed per-disk read/written byte counters into the three
bounded histories. -/
def refresh_system (t : Telemetry) (inp : SampleInput) : Except String Telemetry :=
  if inp.cpuUsages = [] then Except.error "CPUs cannot be empty"
  else
    let cpu_usage := min (inp.cpuUsages.sum / (inp.cpuUsages.length : ℚ)) 100
    Except.ok
      { cpu_usage_points :=
          (push_within_limit t.cpu_usage_points cpu_usage MAX_CPU_USAGE_POINTS).1
        read_bytes_points :=
          (push_within_limit t.read_bytes_points inp.diskReads.sum MAX_DISK_USAGE_POINTS).1
        written_bytes_points :=
          (push_within_limit t.written_bytes_points inp.diskWrites.sum
            MAX_DISK_USAGE_POINTS).1 }

/-- Embedding of the telemetry part of `App::new` (src/main.rs:58-86): the
histories start empty and the constructor runs one `refresh_system` before
returning. -/
def App_new (inp : SampleInput) : Except String Telemetry :=
  refresh_system emptyTelemetry inp

/-- The fields of a `sysinfo::Disk` the program reads. -/
structure DiskInfo where
  mountPoint : String
  totalSpace : Nat
  availableSpace : Nat
  readBytes : Nat
  writtenBytes : Nat
deriving DecidableEq

/-- Embedding of `disk_used_frac` (src/main.rs:890-892) exactly as coded:
`1. - (disk.total_space() - disk.available_space()) as f64 / disk.total_space() as f64`
(`-` on `u64` is truncated `Nat` subtraction; the casts are exact for the
magnitudes involved here). -/
def disk_used_frac (d : DiskInfo) : ℚ :=
  1 - ((d.totalSpace - d.availableSpace : Nat) : ℚ) / (d.totalSpace : ℚ)

/-- The root-mount lookup in `draw_main` (src/main.rs:361-365):
`disks.iter().find(|d| d.mount_point() == "/").expect("must have root partition")`,
with the `expect` panic modelled as `Except.error`. -/
def root_mount_lookup (disks : List DiskInfo) : Except String DiskInfo :=
  match disks.find? (fun d => d.mountPoint == "/") with
  | some d => Except.ok d
  | none => Except.error "must have root partition"

/-- The boot-mount lookup in `draw_main` (src/main.rs:377-381), panicking with
"must have boot partition" when no disk is mounted at "/boot/efi/". -/
def boot_mount_lookup (disks : List DiskInfo) : Except String DiskInfo :=
  match disks.find? (fun d => d.mountPoint == "/boot/efi/") with
  | some d => Except.ok d
  | none => Except.error "must have boot partition"

/-- The read of the CPU-usage history that feeds the current-CPU percentage
label (src/main.rs:322): `self.cpu_usage_points.back()`, the BACK of a deque
whose front receives each push. -/
def cpu_label_read (t : Telemetry) : Option ℚ :=
  t.cpu_usage_points.getLast?

/-- The read `self.read_bytes_points.iter().max()` that `draw_main` unwraps
(src/main.rs:473). -/
def read_bytes_max (t : Telemetry) : Option Nat :=
  t.read_bytes_points.max?

/-- The read `self.written_bytes_points.iter().max()` that `draw_main` unwraps
(src/main.rs:487). -/
def written_bytes_max (t : Telemetry) : Option Nat :=
  t.written_bytes_points.max?

/-- C1 counterexample: a sampling cycle with an empty CPU list aborts with
`panic!("CPUs cannot be empty")` (src/main.rs:96) instead of degrading to a
zero value, and the per-mount lookups used for drawing abort via
`expect("must have root partition")` / `expect("must have boot partition")`
(src/main.rs:365,381) when no disk is mounted at "/" or "/boot/efi/". -/
theorem sampling_panics_counterexample :
    refresh_system emptyTelemetry { cpuUsages := [], diskReads := [], diskWrites := [] }
      = Except.error "CPUs cannot be empty" ∧
    root_mount_lookup [] = Except.error "must have root partition" ∧
    boot_mount_lookup [] = Except.error "must have boot partition" :=
  ⟨rfl, rfl, rfl⟩

/-- C1 amended: a sampling cycle panics exactly when the refreshed CPU list is
empty, and the per-mount lookups used for drawing panic exactly when no disk is
mounted at "/" (resp. "/boot/efi/"); when those counters are present the cycle
and the lookups succeed rather than failing. -/
theorem sampling_panic_conditions (t : Telemetry) (inp : SampleInput)
    (disks : List DiskInfo) :
    (refresh_system t inp = Except.error "CPUs cannot be empty" ↔ inp.cpuUsages = []) ∧
    (inp.cpuUsages ≠ [] → ∃ t2, refresh_system t inp = Except.ok t2) ∧
    (root_mount_lookup disks = Except.error "must have root partition" ↔
      ∀ d ∈ disks, d.mountPoint ≠ "/") ∧
    (boot_mount_lookup disks = Except.error "must have boot partition" ↔
      ∀ d ∈ disks, d.mountPoint ≠ "/boot/efi/") := by
  refine ⟨?_, ?_, ?_, ?_⟩
  · unfold refresh_system
    by_cases h : inp.cpuUsages = [] <;> simp [h]
  · intro h
    unfold refresh_system
    rw [if_neg h]
    exact ⟨_, rfl⟩
  · unfold root_mount_lookup
    rcases hf : disks.find? (fun d => d.mountPoint == "/") with _ | d <;> simp only [hf]
    · rw [List.find?_eq_none] at hf
      simp only [true_iff]
      intro d hd
      simpa using hf d hd
    · constructor
      · intro hcon
        simp at hcon
      · intro hall
        exact absurd (by simpa using List.find?_some hf)
          (hall d (List.mem_of_find?_eq_some hf))
  · unfold boot_mount_lookup
    rcases hf : disks.find? (fun d => d.mountPoint == "/boot/efi/") with _ | d <;>
      simp only [hf]
    · rw [List.find?_eq_none] at hf
      simp only [true_iff]
      intro d hd
      simpa using hf d hd
    · constructor
      · intro hcon
        simp at hcon
      · intro hall
        exact absurd (by simpa using List.find?_some hf)
          (hall d (List.mem_of_find?_eq_some hf))

theorem sampling_panic_conditions_witness :
    refresh_system emptyTelemetry
        { cpuUsages := [50], diskReads := [3], diskWrites := [4] }
      ≠ Except.error "CPUs cannot be empty" ∧
    root_mount_lookup
        [{ mountPoint := "/", totalSpace := 100, availableSpace := 25,
           readBytes := 0, writtenBytes := 0 }]
      ≠ Except.error "must have root partition" := by
  have h := sampling_panic_conditions emptyTelemetry
    { cpuUsages := [50], diskReads := [3], diskWrites := [4] }
    [{ mountPoint := "/", totalSpace := 100, availableSpace := 25,
       readBytes := 0, writtenBytes := 0 }]
  constructor
  · intro hc
    have := h.1.mp hc
    simp at this
  · intro hc
    have := h.2.2.1.mp hc
      { mountPoint := "/", totalSpace := 100, availableSpace := 25,
        readBytes := 0, writtenBytes := 0 } (by simp)
    simp at this

theorem push_within_limit_fst_ne_nil (st : List α) (x : α) (limit : Nat)
    (hl : 0 < limit) : (push_within_limit st x limit).1 ≠ [] := by
  unfold push_within_limit
  by_cases h : (x :: st).length > limit
  · rw [if_pos h]
    intro hcon
    have := congrArg List.length hcon
    simp only [List.length_dropLast, List.length_cons, List.length_nil] at this
    simp only [List.length_cons] at h
    omega
  · rw [if_neg h]
    simp

theorem push_within_limit_length (st : List α) (x : α) (limit : Nat)
    (hl : st.length ≤ limit) :
    (push_within_limit st x limit).1.length = min (st.length + 1) limit := by
  unfold push_within_limit
  by_cases h : (x :: st).length > limit
  · rw [if_pos h]
    simp only [List.length_cons] at h
    simp only [List.length_dropLast, List.length_cons]
    omega
  · rw [if_neg h]
    simp only [List.length_cons] at h ⊢
    omega

/-- C10: whenever `refresh_system` completes (so in particular after the refresh
`App::new` performs, and after the refresh at the start of every render cycle),
each of the three histories is non-empty — the refresh pushed exactly one sample
into each — so the reads that `draw_main` unwraps (`cpu_usage_points.back()`,
`read_bytes_points.iter().max()`, `written_bytes_points.iter().max()`) all yield
a value and the unwraps cannot panic when drawing follows a refresh. -/
theorem histories_nonempty_after_refresh (t : Telemetry) (inp : SampleInput)
    (t2 : Telemetry) (h : refresh_system t inp = Except.ok t2) :
    t2.cpu_usage_points ≠ [] ∧ t2.read_bytes_points ≠ [] ∧
    t2.written_bytes_points ≠ [] ∧
    (t.cpu_usage_points.length ≤ MAX_CPU_USAGE_POINTS →
      t2.cpu_usage_points.length
        = min (t.cpu_usage_points.length + 1) MAX_CPU_USAGE_POINTS) ∧
    (t.read_bytes_points.length ≤ MAX_DISK_USAGE_POINTS →
      t2.read_bytes_points.length
        = min (t.read_bytes_points.length + 1) MAX_DISK_USAGE_POINTS) ∧
    (t.written_bytes_points.length ≤ MAX_DISK_USAGE_POINTS →
      t2.written_bytes_points.length
        = min (t.written_bytes_points.length + 1) MAX_DISK_USAGE_POINTS) ∧
    cpu_label_read t2 ≠ none ∧ read_bytes_max t2 ≠ none ∧
    written_bytes_max t2 ≠ none := by
  unfold refresh_system at h
  by_cases hc : inp.cpuUsages = []
  · rw [if_pos hc] at h
    exact absurd h (by simp)
  · rw [if_neg hc] at h
    have ht2 := (Except.ok.injEq _ _).mp h
    subst ht2
    have h1 := push_within_limit_fst_ne_nil t.cpu_usage_points
      (min (inp.cpuUsages.sum / (inp.cpuUsages.length : ℚ)) 100)
      MAX_CPU_USAGE_POINTS (by decide)
    have h2 := push_within_limit_fst_ne_nil t.read_bytes_points inp.diskReads.sum
      MAX_DISK_USAGE_POINTS (by decide)
    have h3 := push_within_limit_fst_ne_nil t.written_bytes_points inp.diskWrites.sum
      MAX_DISK_USAGE_POINTS (by decide)
    refine ⟨h1, h2, h3, ?_, ?_, ?_, ?_, ?_, ?_⟩
    · intro hlen
      exact push_within_limit_length _ _ _ hlen
    · intro hlen
      exact push_within_limit_length _ _ _ hlen
    · intro hlen
      exact push_within_limit_length _ _ _ hlen
    · simpa [cpu_label_read] using h1
    · simpa [read_bytes_max, List.max?_eq_none_iff] using h2
    · simpa [written_bytes_max, List.max?_eq_none_iff] using h3

theorem histories_nonempty_after_refresh_witness :
    refresh_system emptyTelemetry
        { cpuUsages := [50], diskReads := [3], diskWrites := [4] }
      = Except.ok { cpu_usage_points := [50], read_bytes_points := [3],
                    written_bytes_points := [4] } ∧
    cpu_label_read { cpu_usage_points := [50], read_bytes_points := [3],
                     written_bytes_points := [4] } ≠ none ∧
    read_bytes_max { cpu_usage_points := [50], read_bytes_points := [3],
                     written_bytes_points := [4] } ≠ none := by
  have hok : refresh_system emptyTelemetry
      { cpuUsages := [50], diskReads := [3], diskWrites := [4] }
      = Except.ok { cpu_usage_points := [50], read_bytes_points := [3],
                    written_bytes_points := [4] } := by
    simp only [refresh_system, emptyTelemetry, push_within_limit,
      MAX_CPU_USAGE_POINTS, MAX_DISK_USAGE_POINTS, List.sum_cons, List.sum_nil,
      List.length_cons, List.length_nil]
    norm_num [min_def]
  have h := histories_nonempty_after_refresh emptyTelemetry
    { cpuUsages := [50], diskReads := [3], diskWrites := [4] }
    { cpu_usage_points := [50], read_bytes_points := [3],
      written_bytes_points := [4] } hok
  exact ⟨hok, h.2.2.2.2.2.2.1, h.2.2.2.2.2.2.2.1⟩

/-- C4 counterexample: push 10 and then 20 into the (initially empty) CPU-usage
history of capacity `MAX_CPU_USAGE_POINTS`; the label read performed by
`draw_main` (`cpu_usage_points.back()`) returns `some 10` — the oldest retained
element — not the most recently pushed `20`. -/
theorem label_read_counterexample :
    cpu_label_read
        { cpu_usage_points := pushSeq MAX_CPU_USAGE_POINTS [10, 20],
          read_bytes_points := [], written_bytes_points := [] } = some 10 ∧
    cpu_label_read
        { cpu_usage_points := pushSeq MAX_CPU_USAGE_POINTS [10, 20],
          read_bytes_points := [], written_bytes_points := [] } ≠ some 20 := by
  constructor <;> decide

/-- C4 amended: the read of the CPU-usage history used for the percentage label
is `VecDeque::back()`, which returns the OLDEST retained element — the earliest
of the last `min n c` pushed values after `n` pushes into a capacity-`c`
history — when the history is non-empty, and returns `none` rather than
erroring when it is empty (the surrounding `.unwrap()` in `draw_main` would
turn that `none` into a panic, but a refresh always precedes the draw). -/
theorem label_reads_oldest (c : Nat) (hc : 0 < c) (xs : List ℚ) (hxs : xs ≠ []) :
    cpu_label_read
        { cpu_usage_points := pushSeq c xs,
          read_bytes_points := [], written_bytes_points := [] }
      = xs[xs.length - min xs.length c]? ∧
    cpu_label_read emptyTelemetry = none := by
  refine ⟨?_, rfl⟩
  unfold cpu_label_read
  simp only [pushSeq_eq_take_reverse]
  have hn : 0 < xs.length := List.length_pos.mpr hxs
  have hm : 0 < min c xs.length := by
    simp only [Nat.lt_min]
    exact ⟨hc, hn⟩
  rw [List.getLast?_eq_getElem?]
  rw [List.length_take, List.length_reverse]
  rw [List.getElem?_take_of_lt (by omega : min c xs.length - 1 < c)]
  rw [List.getElem?_reverse (by omega : min c xs.length - 1 < xs.length)]
  have hidx : xs.length - 1 - (min c xs.length - 1) = xs.length - min xs.length c := by
    have := Nat.min_comm c xs.length
    omega
  rw [hidx]

theorem label_reads_oldest_witness :
    cpu_label_read
        { cpu_usage_points := pushSeq 50 [(10 : ℚ), 20],
          read_bytes_points := [], written_bytes_points := [] }
      = [(10 : ℚ), 20][2 - min 2 50]? := by
  exact (label_reads_oldest 50 (by decide) [10, 20] (by decide)).1

/-- Fuel-bounded binary logarithm: `natLog2Fuel fuel n` is the floor of
`log2 n` whenever `n < 2 ^ fuel` (structural recursion on the fuel so that
proofs can evaluate it; fuel 64 covers every `u64`). -/
def natLog2Fuel : Nat → Nat → Nat
  | 0, _ => 0
  | fuel + 1, n => if 2 ≤ n then natLog2Fuel fuel (n / 2) + 1 else 0

/-- Round `x` to the nearest multiple of `u`, ties to the even multiple
(IEEE-754 round-to-nearest-even applied to the trailing bits). -/
def roundMant (x u : Nat) : Nat :=
  if 2 * (x % u) < u then x / u * u
  else if u < 2 * (x % u) then (x / u + 1) * u
  else if (x / u) % 2 = 0 then x / u * u else (x / u + 1) * u

/-- The exact integer value of `bytes as f64` for a `u64`: exact for
`x ≤ 2 ^ 53`, otherwise rounded to 53 significant bits (nearest, ties to
even). -/
def u64_as_f64 (x : Nat) : Nat :=
  if x ≤ 2 ^ 53 then x else roundMant x (2 ^ (natLog2Fuel 64 x - 52))

/-- Rendering of `format!("{val:.1}")` for the f64 value `x / 2 ^ k` (every
value `format_bytes` formats has exactly this shape, and the divisions by 1024
only shift the exponent, so the representation is exact): the exact value is
rounded to one decimal place, nearest with ties to even, as Rust's float
`Display` with precision does. -/
def fmt_one_decimal (x k : Nat) : String :=
  let t := 10 * x
  let p := 2 ^ k
  let q := t / p
  let r := t % p
  let n := if 2 * r < p then q else if p < 2 * r then q + 1
           else if q % 2 = 0 then q else q + 1
  toString (n / 10) ++ "." ++ toString (n % 10)

/-- The `UNITS` array of `format_bytes` (src/main.rs:898). -/
def UNITS : List String := ["kB", "MB", "GB", "TB", "PB"]

/-- The `for unit in UNITS` loop of `format_bytes` (src/main.rs:900-906): the
current value is carried exactly as `x / 2 ^ k`; each iteration divides by
1024 (so `k + 10`), returns `"{val:.1}{unit}"` as soon as `val < 1000.`, and
after the last unit the function falls through to `"{val:.1}PB"`. -/
def format_bytes_loop : Nat → Nat → List String → String
  | x, k, [] => fmt_one_decimal x k ++ "PB"
  | x, k, unit :: rest =>
    if x < 1000 * 2 ^ (k + 10) then fmt_one_decimal x (k + 10) ++ unit
    else format_bytes_loop x (k + 10) rest

/-- Embedding of `format_bytes` (src/main.rs:894-907). -/
def format_bytes (bytes : Nat) : String :=
  if bytes < 1000 then toString bytes ++ "B"
  else format_bytes_loop (u64_as_f64 bytes) 0 UNITS

theorem natLog2Fuel_le (fuel n : Nat) : natLog2Fuel fuel n ≤ fuel := by
  induction fuel generalizing n with
  | zero => simp [natLog2Fuel]
  | succ f ih =>
    unfold natLog2Fuel
    by_cases h : 2 ≤ n
    · rw [if_pos h]
      exact Nat.succ_le_succ (ih _)
    · rw [if_neg h]
      omega

theorem roundMant_ge_floor (x u : Nat) : x / u * u ≤ roundMant x u := by
  unfold roundMant
  split
  · exact le_refl _
  · split
    · exact Nat.mul_le_mul_right _ (Nat.le_succ _)
    · split
      · exact le_refl _
      · exact Nat.mul_le_mul_right _ (Nat.le_succ _)

theorem u64_as_f64_ge (b T : Nat) (hT : T ≤ b) (hdvd : 2 ^ 12 ∣ T) :
    T ≤ u64_as_f64 b := by
  unfold u64_as_f64
  by_cases h : b ≤ 2 ^ 53
  · rw [if_pos h]
    exact hT
  · rw [if_neg h]
    have he64 : natLog2Fuel 64 b ≤ 64 := natLog2Fuel_le 64 b
    have hu : (2 : Nat) ^ (natLog2Fuel 64 b - 52) ∣ T :=
      dvd_trans (pow_dvd_pow 2 (by omega)) hdvd
    have hq : T ≤ b / 2 ^ (natLog2Fuel 64 b - 52) * 2 ^ (natLog2Fuel 64 b - 52) := by
      calc T = T / 2 ^ (natLog2Fuel 64 b - 52) * 2 ^ (natLog2Fuel 64 b - 52) :=
            (Nat.div_mul_cancel hu).symm
        _ ≤ b / 2 ^ (natLog2Fuel 64 b - 52) * 2 ^ (natLog2Fuel 64 b - 52) :=
            Nat.mul_le_mul_right _ (Nat.div_le_div_right hT)
    exact le_trans hq (roundMant_ge_floor b _)

/-- C3: `format_bytes` walks the fixed unit ladder B, kB, MB, GB, TB, PB,
dividing by 1024 at each step, moves to the next unit exactly when the scaled
value reaches or exceeds 1000, renders one decimal place, and saturates at PB
for arbitrarily large `u64` inputs; in particular it maps 0, 999, 1000,
1048574, 702227152896 and 1503947516259121342 to "0B", "999B", "1.0kB",
"1.0MB", "654.0GB" and "1335.8PB". -/
theorem format_bytes_ladder :
    format_bytes 0 = "0B" ∧ format_bytes 999 = "999B" ∧
    format_bytes 1000 = "1.0kB" ∧ format_bytes 1048574 = "1.0MB" ∧
    format_bytes 702227152896 = "654.0GB" ∧
    format_bytes 1503947516259121342 = "1335.8PB" ∧
    ∀ b : Nat, 1000 * 2 ^ 40 ≤ b → format_bytes b = fmt_one_decimal (u64_as_f64 b) 50 ++ "PB" := by
  refine ⟨by decide, by decide, by decide, by decide, by decide, by decide, ?_⟩
  intro b hb
  have hx : 1000 * 2 ^ 40 ≤ u64_as_f64 b :=
    u64_as_f64_ge b (1000 * 2 ^ 40) hb ⟨1000 * 2 ^ 28, by norm_num⟩
  have h1000 : (1000 : Nat) ≤ b := le_trans (by norm_num) hb
  unfold format_bytes
  rw [if_neg (Nat.not_lt.mpr h1000)]
  norm_num at hx
  simp only [UNITS, format_bytes_loop, Nat.reduceAdd, Nat.reducePow, Nat.reduceMul]
  rw [if_neg (by omega), if_neg (by omega), if_neg (by omega), if_neg (by omega)]
  exact ite_self _

theorem format_bytes_ladder_witness :
    1000 * 2 ^ 40 ≤ 1152921504606846976 ∧
    format_bytes 1152921504606846976
      = fmt_one_decimal (u64_as_f64 1152921504606846976) 50 ++ "PB" :=
  ⟨by norm_num, format_bytes_ladder.2.2.2.2.2.2 1152921504606846976 (by norm_num)⟩

/-- C5 (code bug): `disk_used_frac` as coded computes
`1 - (total - available)/total`, the AVAILABLE fraction, not the used fraction
its name and its rendering as a used-percentage promise: for a disk with
`total_space = 100` and `available_space = 25` it yields `1/4`, while the used
fraction `(total - available)/total` is `3/4`. -/
theorem disk_used_frac_is_free_frac :
    disk_used_frac
        { mountPoint := "/", totalSpace := 100, availableSpace := 25,
          readBytes := 0, writtenBytes := 0 } = 1 / 4 ∧
    ((100 - 25 : Nat) : ℚ) / 100 = 3 / 4 ∧ (1 / 4 : ℚ) ≠ 3 / 4 := by
  refine ⟨?_, by norm_num, by norm_num⟩
  unfold disk_used_frac
  norm_num

/-- Outcome of the three fallible steps of the buffer-allocation block of
`App::render` (src/main.rs:184-198): creating the temp file, sizing it with
`set_len`, and mapping it with `map_mut`.  `success` means all three
succeeded (the subsequent `create_pool` request cannot fail locally). -/
inductive AllocResult where
  | success
  | createFailed
  | setLenFailed
  | mmapFailed
deriving DecidableEq

/-- The buffer-lifecycle fields of `App` (src/main.rs:41-44).  The backing
file, the memory mapping and the compositor-side pool are identified by the
value of the allocation counter at their creation, so "same object" and
"freshly allocated" are expressible; `allocCount` counts allocations ever
performed (it is the observation the spec's allocation counter makes, not a
field of the Rust struct). -/
structure BufState where
  bufferFile : Option Nat
  bufferMmap : Option Nat
  bufferPool : Option Nat
  bufferSize : Nat
  allocCount : Nat
deriving DecidableEq

/-- Well-formedness: every installed object identity was handed out by the
allocation counter earlier. -/
def BufState.wf (s : BufState) : Prop :=
  s.bufferFile.all (fun i => i < s.allocCount) = true ∧
  s.bufferMmap.all (fun i => i < s.allocCount) = true ∧
  s.bufferPool.all (fun i => i < s.allocCount) = true

/-- Embedding of the buffer-sizing block of `App::render`
(src/main.rs:177-214): when `self.buffer_size != size || self.buffer_file.is_none()`,
a new temp file is created, sized and mapped and a new pool is registered, and
only then do the assignments to the `buffer_*` fields drop the previous file,
mapping and pool; any failure propagates with `?` before those assignments, so
`self` keeps the old buffer fields.  Otherwise the existing allocation is
reused unchanged.  Returns the state as the caller observes it afterwards,
together with the propagated error, if any. -/
def ensure_sized (r : AllocResult) (s : BufState) (size : Nat) :
    BufState × Option String :=
  if s.bufferSize ≠ size ∨ s.bufferFile = none then
    match r with
    | .success =>
        ({ bufferFile := some s.allocCount, bufferMmap := some s.allocCount,
           bufferPool := some s.allocCount, bufferSize := size,
           allocCount := s.allocCount + 1 }, none)
    | .createFailed => (s, some "Failed to create temp file")
    | .setLenFailed => (s, some "Failed to set file size")
    | .mmapFailed => (s, some "Failed to mmap file")
  else (s, none)

/-- C6: buffer sizing is idempotent: whatever the first cycle did for a given
required size, a second cycle with the same size returns the very same state —
same backing file, mapping, pool and recorded size, same allocation count (so
no reallocation took place) — and no error, regardless of how an allocation
would have fared (none is attempted; the reuse is decided by the single
size/presence check). -/
theorem ensure_sized_idempotent (s : BufState) (size : Nat) (s1 : BufState)
    (h : (ensure_sized AllocResult.success s size).1 = s1) (r : AllocResult) :
    ensure_sized r s1 size = (s1, none) := by
  unfold ensure_sized at h ⊢
  by_cases hcond : s.bufferSize ≠ size ∨ s.bufferFile = none
  · rw [if_pos hcond] at h
    dsimp only at h
    subst h
    rw [if_neg (by simp)]
  · rw [if_neg hcond] at h
    dsimp only at h
    subst h
    rw [if_neg hcond]

theorem ensure_sized_idempotent_witness :
    ensure_sized AllocResult.mmapFailed
      { bufferFile := some 0, bufferMmap := some 0, bufferPool := some 0,
        bufferSize := 32, allocCount := 1 } 32
    = ({ bufferFile := some 0, bufferMmap := some 0, bufferPool := some 0,
         bufferSize := 32, allocCount := 1 }, none) :=
  ensure_sized_idempotent
    { bufferFile := none, bufferMmap := none, bufferPool := none,
      bufferSize := 0, allocCount := 0 } 32
    { bufferFile := some 0, bufferMmap := some 0, bufferPool := some 0,
      bufferSize := 32, allocCount := 1 } (by decide) AllocResult.mmapFailed

/-- C7: when the required size differs from the current allocation, a
successful cycle installs a freshly allocated file, mapping and pool (none of
which is any previously installed object) and records the new size — the old
objects are dropped only by that installation; and if creating, sizing or
mapping the new region fails, the error is propagated out of the cycle and the
previously installed file, mapping, pool and recorded size are left exactly as
they were. -/
theorem ensure_sized_realloc_safe (s : BufState) (size : Nat)
    (hne : s.bufferSize ≠ size) (hwf : s.wf) :
    ((ensure_sized AllocResult.success s size).2 = none ∧
     (ensure_sized AllocResult.success s size).1.bufferSize = size ∧
     (ensure_sized AllocResult.success s size).1.bufferFile = some s.allocCount ∧
     (ensure_sized AllocResult.success s size).1.bufferMmap = some s.allocCount ∧
     (ensure_sized AllocResult.success s size).1.bufferPool = some s.allocCount ∧
     s.bufferFile ≠ some s.allocCount ∧
     s.bufferMmap ≠ some s.allocCount ∧
     s.bufferPool ≠ some s.allocCount) ∧
    (∀ r : AllocResult, r ≠ AllocResult.success →
      (ensure_sized r s size).1 = s ∧ (ensure_sized r s size).2 ≠ none) := by
  have hcond : s.bufferSize ≠ size ∨ s.bufferFile = none := Or.inl hne
  constructor
  · unfold ensure_sized
    rw [if_pos hcond]
    refine ⟨rfl, rfl, rfl, rfl, rfl, ?_, ?_, ?_⟩
    · intro hcon
      have := hwf.1
      rw [hcon] at this
      simp at this
    · intro hcon
      have := hwf.2.1
      rw [hcon] at this
      simp at this
    · intro hcon
      have := hwf.2.2
      rw [hcon] at this
      simp at this
  · intro r hr
    unfold ensure_sized
    rw [if_pos hcond]
    cases r with
    | success => exact absurd rfl hr
    | createFailed => exact ⟨rfl, by simp⟩
    | setLenFailed => exact ⟨rfl, by simp⟩
    | mmapFailed => exact ⟨rfl, by simp⟩

theorem ensure_sized_realloc_safe_witness :
    (ensure_sized AllocResult.success
        { bufferFile := some 0, bufferMmap := some 0, bufferPool := some 0,
          bufferSize := 16, allocCount := 1 } 32).1.bufferFile = some 1 ∧
    (ensure_sized AllocResult.mmapFailed
        { bufferFile := some 0, bufferMmap := some 0, bufferPool := some 0,
          bufferSize := 16, allocCount := 1 } 32).1
      = { bufferFile := some 0, bufferMmap := some 0, bufferPool := some 0,
          bufferSize := 16, allocCount := 1 } ∧
    (ensure_sized AllocResult.mmapFailed
        { bufferFile := some 0, bufferMmap := some 0, bufferPool := some 0,
          bufferSize := 16, allocCount := 1 } 32).2 ≠ none := by
  have h := ensure_sized_realloc_safe
    { bufferFile := some 0, bufferMmap := some 0, bufferPool := some 0,
      bufferSize := 16, allocCount := 1 } 32 (by decide)
    ⟨by decide, by decide, by decide⟩
  exact ⟨h.1.2.2.1, (h.2 AllocResult.mmapFailed (by decide)).1,
    (h.2 AllocResult.mmapFailed (by decide)).2⟩

/-- The dispatch-loop events that matter to the frame scheduler: a layer-surface
Configure, a frame-callback Done, a layer-surface Closed, and any other event
(registry globals, output scale, shm, ...), whose handlers neither render nor
arm callbacks. -/
inductive WEvent where
  | configure
  | callbackDone
  | closed
  | other
deriving DecidableEq

/-- The scheduling-relevant observation of `App` during dispatch:
whether the surface and shm are installed, how many render cycles have begun,
how many frame callbacks are currently registered and unfired, and how many
render errors were logged. -/
structure SchedState where
  surfaceReady : Bool
  renders : Nat
  armed : Nat
  errors : Nat
deriving DecidableEq

/-- One call of `App::render` as the dispatch handlers observe it
(src/main.rs:125-134, 739-741, 815-817): with surface and shm present the
render cycle runs, and a failure is logged by the caller (`error!`) — the
handler continues either way; without them render logs and returns `Ok`
without a cycle. -/
def render_call (renderOk : Bool) (s : SchedState) : SchedState :=
  if s.surfaceReady then
    { s with renders := s.renders + 1,
             errors := s.errors + (if renderOk then 0 else 1) }
  else s

/-- One step of the event loop.  The Configure handler (src/main.rs:803-824)
renders and then arms one frame callback via `surface.frame` when the surface
exists; the frame-callback handler (src/main.rs:728-750) runs for a previously
registered callback's Done, renders (logging any error), sleeps for
`RENDER_INTERVAL`, and arms the next callback; Closed and all other events
neither render nor arm. -/
def sched_step (renderOk : Bool) (s : SchedState) : WEvent → SchedState
  | WEvent.configure =>
      let s1 := render_call renderOk s
      if s.surfaceReady then { s1 with armed := s1.armed + 1 } else s1
  | WEvent.callbackDone =>
      if 0 < s.armed then
        let s1 := render_call renderOk { s with armed := s.armed - 1 }
        if s.surfaceReady then { s1 with armed := s1.armed + 1 } else s1
      else s
  | WEvent.closed => s
  | WEvent.other => s

/-- The event loop over a list of dispatched events. -/
def sched_run (renderOk : Bool) (s : SchedState) : List WEvent → SchedState
  | [] => s
  | e :: evs => sched_run renderOk (sched_step renderOk s e) evs

/-- Scheduler state when `main` enters the dispatch loop: surface and shm are
bound before the configure roundtrip (src/main.rs:850-874), no cycle has run,
no callback is armed. -/
def startSched : SchedState :=
  { surfaceReady := true, renders := 0, armed := 0, errors := 0 }

theorem sched_run_inert (renderOk : Bool) (s : SchedState) (evs : List WEvent)
    (h : ∀ e ∈ evs, e ≠ WEvent.configure ∧ e ≠ WEvent.callbackDone) :
    sched_run renderOk s evs = s := by
  induction evs generalizing s with
  | nil => rfl
  | cons e evs ih =>
    have he := h e (List.mem_cons_self e evs)
    have hstep : sched_step renderOk s e = s := by
      cases e with
      | configure => exact absurd rfl he.1
      | callbackDone => exact absurd rfl he.2
      | closed => rfl
      | other => rfl
    rw [sched_run, hstep]
    exact ih _ fun e2 he2 => h e2 (List.mem_cons_of_mem e he2)

/-- C8: after the initial surface configure, exactly one render cycle has
executed and exactly one frame callback is registered, and this stays so while
any events other than that callback's Done (and further configures) are
dispatched; the second render cycle begins exactly upon receipt of the
callback's Done notification. -/
theorem configure_single_cycle (evs : List WEvent)
    (h : ∀ e ∈ evs, e ≠ WEvent.configure ∧ e ≠ WEvent.callbackDone) :
    (sched_run true startSched (WEvent.configure :: evs)).renders = 1 ∧
    (sched_run true startSched (WEvent.configure :: evs)).armed = 1 ∧
    (sched_step true (sched_run true startSched (WEvent.configure :: evs))
        WEvent.callbackDone).renders = 2 := by
  have hrun : sched_run true startSched (WEvent.configure :: evs)
      = { surfaceReady := true, renders := 1, armed := 1, errors := 0 } := by
    rw [sched_run, show sched_step true startSched WEvent.configure
        = { surfaceReady := true, renders := 1, armed := 1, errors := 0 } from by decide]
    exact sched_run_inert true _ evs h
  rw [hrun]
  exact ⟨rfl, rfl, by decide⟩

theorem configure_single_cycle_witness :
    (sched_run true startSched
        [WEvent.configure, WEvent.other, WEvent.closed]).renders = 1 ∧
    (sched_run true startSched
        [WEvent.configure, WEvent.other, WEvent.closed]).armed = 1 ∧
    (sched_step true (sched_run true startSched
        [WEvent.configure, WEvent.other, WEvent.closed])
        WEvent.callbackDone).renders = 2 :=
  configure_single_cycle [WEvent.other, WEvent.closed] (by decide)

/-- C9: a failed render cycle does not stall the pipeline: for every scheduler
state and event, the step taken when `render` fails arms exactly the same
number of frame callbacks, begins exactly the same render cycles (one per
trigger — no immediate retry) and keeps the same surface state as the step
taken when `render` succeeds; the only difference is that the failure is
logged (the error counter grows by the number of cycles the step ran, while a
successful step logs nothing). -/
theorem render_failure_no_stall (s : SchedState) (e : WEvent) :
    (sched_step false s e).armed = (sched_step true s e).armed ∧
    (sched_step false s e).renders = (sched_step true s e).renders ∧
    (sched_step false s e).surfaceReady = (sched_step true s e).surfaceReady ∧
    (sched_step false s e).errors
      = s.errors + ((sched_step true s e).renders - s.renders) ∧
    (sched_step true s e).errors = s.errors := by
  cases e <;> cases hs : s.surfaceReady <;>
    by_cases ha : 0 < s.armed <;>
    simp [sched_step, render_call, hs, ha]

end Widget
